import Mathlib

/-!
Verification of the reflection-and-identity layer of `mathesar/models/base.py`.

The development shallowly embeds the data model and the operations of the
source file: catalog state, the Django key-value cache, the per-instance
`cached_property` memoisation, the reflection managers, and the structural
mutation operations on tables, columns and constraints.  Functions of the
repository's `db` layer and of `mathesar.reflection` that the source file
calls but whose code is not part of the verified sources are modelled from
the specification; each such definition carries a doc comment saying so.
-/

namespace Mathesar

/-! ## The live catalog

The user database's own metadata (schemas, tables, columns, constraints),
the external source of truth.  Object-ids and attribute-numbers are `Nat`s,
names are `String`s.  `nextOid` models the catalog's fresh-oid supply. -/

structure CatColumn where
  attnum : Nat
  colName : String
deriving DecidableEq, Repr

structure CatConstraint where
  conOid : Nat
  conName : String
  conType : String
  conKey : List Nat
deriving DecidableEq, Repr

structure CatTable where
  tblOid : Nat
  tblName : String
  tblColumns : List CatColumn
  tblConstraints : List CatConstraint
deriving DecidableEq, Repr

structure Catalog where
  schemaNames : List (Nat × String)
  tables : List CatTable
  nextOid : Nat
deriving DecidableEq, Repr

def lookupTable (cat : Catalog) (toid : Nat) : Option CatTable :=
  cat.tables.find? (fun t => t.tblOid == toid)

/-- Modelled from the spec: `get_schema_name_from_oid` (db.schemas.utils, not
under src/) resolves a schema object-id to its current catalog name; `none`
models the object-not-found failure (the `TypeError` the caller catches)
arising when the object-id is no longer in the catalog. -/
def get_schema_name_from_oid (soid : Nat) (cat : Catalog) : Option String :=
  (cat.schemaNames.find? (fun p => p.1 == soid)).map (fun p => p.2)

/-! ## The Django cache

`django.core.cache.cache`, an external key-value store with per-key expiry:
an entry set at time `t` with timeout `ttl` expires at `t + ttl`, and `get`
returns it only strictly before that instant (Django's local-memory backend
treats `expiry ≤ now` as expired). -/

structure NameCache where
  entries : List (String × String × Nat)
deriving DecidableEq, Repr

def cacheGet (c : NameCache) (now : Nat) (k : String) : Option String :=
  match c.entries.find? (fun e => e.1 == k) with
  | some e => if now < e.2.2 then some e.2.1 else none
  | none => none

def cacheSet (c : NameCache) (now : Nat) (k v : String) (ttl : Nat) : NameCache :=
  ⟨(k, v, now + ttl) :: c.entries.filter (fun e => e.1 != k)⟩

def cacheDelete (c : NameCache) (k : String) : NameCache :=
  ⟨c.entries.filter (fun e => e.1 != k)⟩

/-- `NAME_CACHE_INTERVAL = 60 * 5` (models/base.py line 37). -/
def NAME_CACHE_INTERVAL : Nat := 60 * 5

/-! ## Schema name resolution (`Schema.name`) -/

/-- Result of one run of the `Schema.name` body: the resolved value, the
cache afterwards, and how many catalog accesses were made. -/
structure ResolveOut where
  value : String
  cache : NameCache
  catalogCalls : Nat
deriving DecidableEq, Repr

/-- The cache key `f"{self.database.name}_schema_name_{self.oid}"`. -/
def schemaNameKey (dbname : String) (soid : Nat) : String :=
  dbname ++ "_schema_name_" ++ toString soid

/-- The body of `Schema.name` (models/base.py lines 136-153): try the shared
cache; on a miss fetch the name from the catalog and store it with timeout
`NAME_CACHE_INTERVAL`; if the catalog fetch fails because the object is gone
(the caught `TypeError`) return the sentinel `"MISSING"` without caching. -/
def schema_name_resolve (dbname : String) (soid : Nat) (cat : Catalog)
    (c : NameCache) (now : Nat) : ResolveOut :=
  let cache_key := schemaNameKey dbname soid
  match cacheGet c now cache_key with
  | some schema_name => ⟨schema_name, c, 0⟩
  | none =>
    match get_schema_name_from_oid soid cat with
    | some schema_name =>
        ⟨schema_name, cacheSet c now cache_key schema_name NAME_CACHE_INTERVAL, 1⟩
    | none => ⟨"MISSING", c, 1⟩

/-- An in-memory `Schema` model instance: its object-id, its database's name,
and the `cached_property` slot for `name` (Django's `cached_property` stores
the first computed value in the instance's `__dict__`). -/
structure SchemaInst where
  soid : Nat
  dbName : String
  nameMemo : Option String
deriving DecidableEq, Repr

/-- Result of reading `schema.name` on an instance. -/
structure NameReadOut where
  value : String
  inst : SchemaInst
  cache : NameCache
  catalogCalls : Nat
deriving DecidableEq, Repr

/-- Reading the `cached_property` `Schema.name` on an instance: if the value
was already computed for this instance it is returned as stored, with no
shared-cache or catalog access; otherwise the property body runs and its
value is stored on the instance. -/
def Schema.nameRead (s : SchemaInst) (cat : Catalog) (c : NameCache)
    (now : Nat) : NameReadOut :=
  match s.nameMemo with
  | some v => ⟨v, s, c, 0⟩
  | none =>
    let r := schema_name_resolve s.dbName s.soid cat c now
    ⟨r.value, { s with nameMemo := some r.value }, r.cache, r.catalogCalls⟩

/-- `Schema.clear_name_cache` (models/base.py lines 166-168): deletes the
shared cache entry for this schema's key; the instance itself is untouched. -/
def Schema.clear_name_cache (s : SchemaInst) (c : NameCache) : NameCache :=
  cacheDelete c (schemaNameKey s.dbName s.soid)

/-! ## Table shape reflection (`Table._sa_table`, `Table.sa_columns`) -/

/-- The SQLAlchemy table object reflected from the catalog: its name and the
shape (column names, constraint names) at reflection time. -/
structure SATable where
  saName : String
  saColumns : List String
  saConstraintNames : List String
deriving DecidableEq, Repr

/-- Modelled from the spec: `get_empty_table` (db.tables.utils, not under
src/) builds a table object with the given name and no columns. -/
def get_empty_table (nm : String) : SATable := ⟨nm, [], []⟩

/-- Modelled from the spec: `reflect_table_from_oid`
(db.tables.operations.select, not under src/) reflects a table's current
shape from the catalog by object-id; `none` models the object-not-found
failure (the `TypeError`/`IndexError` the caller catches). -/
def reflect_table_from_oid (toid : Nat) (cat : Catalog) : Option SATable :=
  (lookupTable cat toid).map (fun t =>
    ⟨t.tblName, t.tblColumns.map (fun c => c.colName),
      t.tblConstraints.map (fun c => c.conName)⟩)

/-- An in-memory `Table` model instance: durable surrogate id, catalog
object-id, owning schema's object-id, and the `cached_property` slot for
`_sa_table` (through which `name`, `sa_columns` and `sa_constraints` are
derived). -/
structure TableInst where
  tid : Nat
  toid : Nat
  schemaOid : Nat
  saTableMemo : Option SATable
deriving DecidableEq, Repr

/-- `Table._sa_table` (models/base.py lines 201-214): a `cached_property`
that reflects the table from the catalog, falling back to
`get_empty_table("MISSING")` when reflection raises because the object is
gone. -/
def Table.saTableGet (t : TableInst) (cat : Catalog) : SATable × TableInst :=
  match t.saTableMemo with
  | some s => (s, t)
  | none =>
    let s := match reflect_table_from_oid t.toid cat with
      | some s0 => s0
      | none => get_empty_table "MISSING"
    (s, { t with saTableMemo := some s })

/-- `Table.sa_columns` (models/base.py lines 226-228): the column collection
of the (enriched) reflected table; the enrichment preserves the column
list, so the shape is the cached `_sa_table`'s columns. -/
def Table.saColumnsGet (t : TableInst) (cat : Catalog) : List String × TableInst :=
  let r := Table.saTableGet t cat
  (r.1.saColumns, r.2)

/-! ## Reflection managers (`ReflectionManagerMixin`) -/

/-- Observable effects, in order of occurrence. -/
inductive Event
  | reflect
  | dbRead
  | dbWrite
  | ddlDropConstraint (toid : Nat) (nm : String)
  | identityDelete (rid : Nat)
deriving DecidableEq, Repr

/-- An identity record of the registry (a row of one of the reflected
models), carrying its durable surrogate id, its catalog object-id, and an
application-owned attribute (a `Column`'s `display_options`). -/
structure IdRow where
  rid : Nat
  roid : Nat
  displayOptions : Option String
deriving DecidableEq, Repr

/-- State seen by the managers: the catalog object-ids at the relevant
level, the identity rows, a fresh-surrogate supply, and the effect trace. -/
structure ReflWorld where
  catalogOids : List Nat
  rows : List IdRow
  nextId : Nat
  trace : List Event
deriving DecidableEq, Repr

/-- Modelled from the spec: the reconciliation algorithm of §4.2 run by
`reflect_db_objects` (mathesar.reflection, not under src/): keep every
identity row whose object-id is still in the catalog, delete the orphans,
and create a fresh identity row for every catalog object-id lacking one. -/
def reconcileRows (catalogOids : List Nat) (rows : List IdRow) (nextId : Nat) :
    List IdRow × Nat :=
  let kept := rows.filter (fun r => catalogOids.contains r.roid)
  let newOids := catalogOids.filter (fun o => !(rows.any (fun r => r.roid == o)))
  (kept ++ newOids.enum.map (fun p => ⟨nextId + p.1, p.2, none⟩),
    nextId + newOids.length)

/-- Modelled from the spec: `reflect_db_objects` (mathesar.reflection, not
under src/) runs a full catalog reconciliation, emitting a `reflect`
event. -/
def reflect_db_objects (w : ReflWorld) : ReflWorld :=
  let r := reconcileRows w.catalogOids w.rows w.nextId
  { w with rows := r.1, nextId := r.2, trace := w.trace ++ [Event.reflect] }

/-- The plain Django manager (`current_objects = models.Manager()`, models/
base.py line 61): reads the rows out of the registry; no reflection. -/
def Manager.get_queryset (w : ReflWorld) : List IdRow × ReflWorld :=
  (w.rows, { w with trace := w.trace ++ [Event.dbRead] })

/-- `DatabaseObjectManager.get_queryset` (models/base.py lines 48-51): runs
`reflection.reflect_db_objects()` and then the base manager's queryset. -/
def DatabaseObjectManager.get_queryset (w : ReflWorld) : List IdRow × ReflWorld :=
  Manager.get_queryset (reflect_db_objects w)

/-- A write of an application-owned attribute:
`column.display_options = opts; column.save()`.  Django's `Model.save`
writes the row directly; no manager queryset and no reflection are
involved. -/
def Column.saveDisplayOptions (w : ReflWorld) (rid : Nat) (opts : String) :
    ReflWorld :=
  { w with
    rows := w.rows.map (fun r =>
      if r.rid == rid then { r with displayOptions := some opts } else r),
    trace := w.trace ++ [Event.dbWrite] }

/-! ## Column DDL operations (`Table.add_column` and friends) -/

/-- The data describing a column to create or the alterations to apply. -/
structure ColumnData where
  cdName : String
deriving DecidableEq, Repr

/-- The attribute-number the catalog assigns to the next column of a table:
one past the largest ever assigned. -/
def nextAttnum (t : CatTable) : Nat :=
  (t.tblColumns.map (fun c => c.attnum)).foldr max 0 + 1

/-- Modelled from the spec: `create_column` (db.columns.operations.create,
not under src/) issues DDL adding a column to the table with the given
object-id; the catalog assigns the new attribute-number. -/
def create_column (cat : Catalog) (toid : Nat) (cd : ColumnData) : Catalog :=
  { cat with tables := cat.tables.map (fun t =>
      if t.tblOid == toid then
        { t with tblColumns := t.tblColumns ++ [⟨nextAttnum t, cd.cdName⟩] }
      else t) }

/-- Modelled from the spec: `alter_column` (db.columns.operations.alter, not
under src/) issues DDL altering the column with the given attribute-number
(here: its name, one of the alterable aspects). -/
def alter_column (cat : Catalog) (toid attnum : Nat) (cd : ColumnData) : Catalog :=
  { cat with tables := cat.tables.map (fun t =>
      if t.tblOid == toid then
        { t with tblColumns := t.tblColumns.map (fun c =>
            if c.attnum == attnum then { c with colName := cd.cdName } else c) }
      else t) }

/-- Modelled from the spec: `drop_column` (db.columns.operations.drop, not
under src/) issues DDL removing the column with the given attribute-number. -/
def drop_column (cat : Catalog) (toid attnum : Nat) : Catalog :=
  { cat with tables := cat.tables.map (fun t =>
      if t.tblOid == toid then
        { t with tblColumns := t.tblColumns.filter (fun c => c.attnum != attnum) }
      else t) }

/-- `Table.add_column` (models/base.py lines 243-248): delegates to
`create_column`; the instance (and with it any memoised `_sa_table`) is
left untouched. -/
def Table.add_column (t : TableInst) (cat : Catalog) (cd : ColumnData) :
    Catalog × TableInst :=
  (create_column cat t.toid cd, t)

/-- `Table.alter_column` (models/base.py lines 250-256): delegates to
`alter_column`; the instance is left untouched. -/
def Table.alter_column (t : TableInst) (cat : Catalog) (attnum : Nat)
    (cd : ColumnData) : Catalog × TableInst :=
  (Mathesar.alter_column cat t.toid attnum cd, t)

/-- `Table.drop_column` (models/base.py lines 258-263): delegates to
`drop_column`; the instance is left untouched. -/
def Table.drop_column (t : TableInst) (cat : Catalog) (attnum : Nat) :
    Catalog × TableInst :=
  (Mathesar.drop_column cat t.toid attnum, t)

/-! ## Constraint operations (`Table.add_constraint`, `Constraint.drop`) -/

/-- The constraint specification handed to `add_constraint`: optional
explicit name, the constraint kind (`constraint_obj.constraint_type()`),
and the constrained columns' attribute-numbers. -/
structure ConstraintObj where
  objName : Option String
  objType : String
  columns_attnum : List Nat
deriving DecidableEq, Repr

/-- A `Constraint` identity row: surrogate id, catalog object-id, owning
table's surrogate id. -/
structure ConstraintRec where
  crid : Nat
  cOid : Nat
  ctableId : Nat
deriving DecidableEq, Repr

/-- Modelled from the spec: `get_constraint_name` (db.constraints.utils, not
under src/): the deterministic naming scheme based on the table, the
constraint kind, and the first constrained column's attribute-number. -/
def get_constraint_name (toid : Nat) (ctype : String) (attnum : Nat) : String :=
  toString toid ++ "_" ++ ctype ++ "_" ++ toString attnum

/-- Modelled from the spec: `get_constraint_oid_by_name_and_table_oid`
(db.constraints.operations.select, not under src/): look the constraint up
by name on the table and return its object-id. -/
def get_constraint_oid_by_name_and_table_oid (nm : String) (toid : Nat)
    (cat : Catalog) : Option Nat :=
  (lookupTable cat toid).bind (fun t =>
    (t.tblConstraints.find? (fun cc => cc.conName == nm)).map (fun cc => cc.conOid))

/-- Apply a rewrite to the tables whose object-id matches (DDL touching one
table of the catalog). -/
def updateTableIn : List CatTable → Nat → (CatTable → CatTable) → List CatTable
  | [], _, _ => []
  | tb :: rest, toid, g =>
    if tb.tblOid == toid then g tb :: updateTableIn rest toid g
    else tb :: updateTableIn rest toid g

/-- Modelled from the spec: `create_constraint`
(db.constraints.operations.create, not under src/): issues DDL creating the
constraint on the table, under the explicit name or, when none is given
(Python falsy: absent or empty), the catalog's deterministic default name;
the catalog assigns the new constraint a fresh object-id.  Fails when the
column list is empty, the table is missing, or the name is taken. -/
def create_constraint (cat : Catalog) (toid : Nat) (cobj : ConstraintObj) :
    Option Catalog :=
  match cobj.columns_attnum with
  | [] => none
  | a :: _ =>
    match lookupTable cat toid with
    | none => none
    | some t =>
      let nm := match cobj.objName with
        | some n => if n == "" then get_constraint_name toid cobj.objType a else n
        | none => get_constraint_name toid cobj.objType a
      if t.tblConstraints.any (fun cc => cc.conName == nm) then none
      else some { cat with
        tables := updateTableIn cat.tables toid (fun tb =>
          { tb with tblConstraints :=
              tb.tblConstraints ++ [⟨cat.nextOid, nm, cobj.objType, cobj.columns_attnum⟩] }),
        nextOid := cat.nextOid + 1 }

/-- `Table.add_constraint` (models/base.py lines 325-341), mirroring the
source: DDL via `create_constraint`; `del self._sa_table` (clearing the
cached shape); name synthesis through `get_constraint_name` when
`constraint_obj.name` is falsy; resolution of the new object-id by looking
it up by name and table oid; creation of one `Constraint` identity row
bound to that object-id. -/
def Table.add_constraint (t : TableInst) (cat : Catalog) (cobj : ConstraintObj)
    (registry : List ConstraintRec) (nextRid : Nat) :
    Option (Catalog × TableInst × List ConstraintRec × ConstraintRec) :=
  match create_constraint cat t.toid cobj with
  | none => none
  | some cat1 =>
    let t1 := { t with saTableMemo := none }
    match cobj.columns_attnum with
    | [] => none
    | a :: _ =>
      let nm := match cobj.objName with
        | some n => if n == "" then get_constraint_name t.toid cobj.objType a else n
        | none => get_constraint_name t.toid cobj.objType a
      match get_constraint_oid_by_name_and_table_oid nm t.toid cat1 with
      | none => none
      | some coid =>
        let row : ConstraintRec := ⟨nextRid, coid, t.tid⟩
        some (cat1, t1, registry ++ [row], row)

/-- Modelled from the spec: `get_constraint_from_oid`
(db.constraints.operations.select, not under src/): the catalog constraint
with the given object-id on the reflected table. -/
def get_constraint_from_oid (coid : Nat) (ct : CatTable) : Option CatConstraint :=
  ct.tblConstraints.find? (fun cc => cc.conOid == coid)

/-- Modelled from the spec: `drop_constraint` DDL
(db.constraints.operations.drop, not under src/): removes the constraint
with the given name from the table. -/
def drop_constraint_ddl (cat : Catalog) (toid : Nat) (nm : String) : Catalog :=
  { cat with tables := updateTableIn cat.tables toid (fun t =>
      { t with tblConstraints := t.tblConstraints.filter (fun cc => cc.conName != nm) }) }

/-- `Constraint.drop` (models/base.py lines 497-504): resolves the
constraint's name through the catalog (`self.name` via
`get_constraint_from_oid` on the table's reflected shape), issues the
`drop_constraint` DDL, and then deletes the identity row itself
(`self.delete()`), in that order, emitting the corresponding events. -/
def Constraint.drop (c : ConstraintRec) (t : TableInst) (cat : Catalog)
    (registry : List ConstraintRec) :
    Option (Catalog × List ConstraintRec × List Event) :=
  match lookupTable cat t.toid with
  | none => none
  | some ct =>
    match get_constraint_from_oid c.cOid ct with
    | none => none
    | some sac =>
      let cat1 := drop_constraint_ddl cat t.toid sac.conName
      let reg1 := registry.filter (fun r => r.crid != c.crid)
      some (cat1, reg1,
        [Event.ddlDropConstraint t.toid sac.conName, Event.identityDelete c.crid])

/-! ## Table insert uniqueness (`Table.validate_unique`, `Table.save`) -/

/-- A `Schema` identity row: surrogate id and owning database's surrogate id. -/
structure SchemaRow where
  srid : Nat
  sdbId : Nat
deriving DecidableEq, Repr

/-- A `Table` identity row: surrogate id, catalog object-id, owning schema's
surrogate id. -/
structure TableRow where
  trid : Nat
  troid : Nat
  tschemaId : Nat
deriving DecidableEq, Repr

/-- The identity registry as seen by `Table.save`. -/
structure Registry where
  schemas : List SchemaRow
  tables : List TableRow
deriving DecidableEq, Repr

/-- The two failure classes of a save: the application-level
`ValidationError` and the database's integrity error from a violated
unique index. -/
inductive SaveError
  | validation (msg : String)
  | integrity (idx : String)
deriving DecidableEq, Repr

/-- The database a schema row belongs to (`schema__database`). -/
def dbIdOfSchema (reg : Registry) (sid : Nat) : Option Nat :=
  (reg.schemas.find? (fun s => s.srid == sid)).map (fun s => s.sdbId)

/-- `Table.validate_unique` (models/base.py lines 184-190): true iff some
existing `Table` row has the same catalog oid within the same database
(`Table.current_objects.filter(oid=self.oid, schema__database=...)`). -/
def Table.validate_unique (reg : Registry) (newT : TableRow) : Bool :=
  reg.tables.any (fun tr => tr.troid == newT.troid &&
    dbIdOfSchema reg tr.tschemaId == dbIdOfSchema reg newT.tschemaId)

/-- The underlying unique index `unique_table` on `(oid, schema)`
(models/base.py lines 179-182, `Meta.constraints`): the database insert
fails with an integrity error when some row already has the same pair. -/
def dbInsertTable (reg : Registry) (newT : TableRow) : Except SaveError Registry :=
  if reg.tables.any (fun tr => tr.troid == newT.troid && tr.tschemaId == newT.tschemaId)
  then .error (.integrity "unique_table")
  else .ok { reg with tables := reg.tables ++ [newT] }

/-- `Table.save` on a new instance (models/base.py lines 192-195,
`self._state.adding`): the application-level pre-check `validate_unique`
raises `ValidationError("Table OID is not unique")` before the insert;
otherwise the row is inserted subject to the unique index. -/
def Table.save (reg : Registry) (newT : TableRow) : Except SaveError Registry :=
  if Table.validate_unique reg newT
  then .error (.validation "Table OID is not unique")
  else dbInsertTable reg newT

/-- No two `Table` identity rows share the same `(oid, schema)` pair. -/
def tablePairUnique (reg : Registry) : Prop :=
  reg.tables.Pairwise (fun a b => ¬(a.troid = b.troid ∧ a.tschemaId = b.tschemaId))

/-! ## Column reference remapping (`Table.update_column_reference`) -/

/-- A `Column` identity row: surrogate id, owning table's surrogate id, and
the catalog attribute-number. -/
structure ColumnRow where
  cid : Nat
  ctableId : Nat
  cattnum : Nat
deriving DecidableEq, Repr

/-- Modelled from the spec: `get_columns_attnum_from_names`
(db.columns.operations.select, not under src/, called with
`return_as_name_map=True`): for the given table object-id, the name →
attribute-number map drawn from the catalog — the catalog's newly assigned
attribute-numbers for those column names in that table. -/
def get_columns_attnum_from_names (toid : Nat) (names : List String)
    (cat : Catalog) : List (String × Nat) :=
  match lookupTable cat toid with
  | none => []
  | some t => names.filterMap (fun n =>
      (t.tblColumns.find? (fun c => c.colName == n)).map (fun c => (n, c.attnum)))

/-- The loop body of `update_column_reference` (models/base.py lines
387-393): for each `(column_name, column_attnum)` of the map, look the
column id up in `column_name_id_map` (a `KeyError`, modelled as `none`,
if absent), fetch the `Column` row by id (`Column.current_objects.get`),
set its `table_id` and `attnum`, and collect it. -/
def buildColumnObjs (tidv : Nat) (column_name_id_map : List (String × Nat))
    (cols : List ColumnRow) : List (String × Nat) → Option (List ColumnRow)
  | [] => some []
  | p :: rest =>
    match column_name_id_map.find? (fun q => q.1 == p.1) with
    | none => none
    | some q =>
      match cols.find? (fun c => c.cid == q.2) with
      | none => none
      | some c =>
        (buildColumnObjs tidv column_name_id_map cols rest).map
          (fun l => { c with ctableId := tidv, cattnum := p.2 } :: l)

/-- `Column.current_objects.bulk_update(column_objs, fields=['table_id',
'attnum'])`: each stored row is replaced by the collected object with its
id, if any. -/
def bulk_update (cols objs : List ColumnRow) : List ColumnRow :=
  cols.map (fun c =>
    match objs.find? (fun o => o.cid == c.cid) with
    | some o => o
    | none => c)

/-- `Table.update_column_reference` (models/base.py lines 380-394): compute
the name → attnum map for this table from the catalog, remap each named
`Column` row's `(table_id, attnum)` to this table and the catalog's
attribute-number, and bulk-update. -/
def Table.update_column_reference (t : TableInst) (columns_name : List String)
    (column_name_id_map : List (String × Nat)) (cat : Catalog)
    (cols : List ColumnRow) : Option (List ColumnRow) :=
  let m := get_columns_attnum_from_names t.toid columns_name cat
  (buildColumnObjs t.tid column_name_id_map cols m).map (bulk_update cols)

/-- The column ids the remap assigns, in loop order. -/
def assignedIds (column_name_id_map : List (String × Nat))
    (m : List (String × Nat)) : List Nat :=
  m.filterMap (fun p =>
    (column_name_id_map.find? (fun q => q.1 == p.1)).map (fun q => q.2))

/-! ## The engine cache (`Database._sa_engine`, `_engines`) -/

/-- The process-wide engine cache `_engines` (models/base.py line 89)
together with the supply of engine handles: `engines` maps database name to
handle, `nextEngineId` feeds construction, `constructions` counts how many
handles were ever constructed. -/
structure EngCache where
  engines : List (String × Nat)
  nextEngineId : Nat
  constructions : Nat
deriving DecidableEq, Repr

/-- `self.name in _engines` / `_engines[self.name]`. -/
def engLookup (g : EngCache) (nm : String) : Option Nat :=
  (g.engines.find? (fun e => e.1 == nm)).map (fun e => e.2)

/-- Modelled from the spec: `create_mathesar_engine`
(mathesar.database.base, not under src/) constructs a new engine handle;
each construction is counted. -/
def create_mathesar_engine (g : EngCache) : Nat × EngCache :=
  (g.nextEngineId,
    { g with nextEngineId := g.nextEngineId + 1, constructions := g.constructions + 1 })

/-- `_engines[self.name] = engine`. -/
def engStore (g : EngCache) (nm : String) (e : Nat) : EngCache :=
  { g with engines := (nm, e) :: g.engines.filter (fun x => x.1 != nm) }

/-- `Database._sa_engine` (models/base.py lines 98-109) executed atomically
(no interleaving): on a miss construct and store; on a hit revalidate
(`ensure_cached_engine_ready`, which constructs nothing) and return the
cached handle. -/
def Database.sa_engine (g : EngCache) (nm : String) : Nat × EngCache :=
  match engLookup g nm with
  | none =>
    let r := create_mathesar_engine g
    (r.1, engStore r.2 nm r.1)
  | some e => (e, g)

/-- The interleaving-sensitive control points of the `_sa_engine` body: a
thread at `start` is about to run the `self.name not in _engines` check; a
thread at `afterMiss` observed a miss and is about to construct and store;
`ret` holds the handle the thread returns. -/
inductive TState
  | start
  | afterMiss
  | ret (e : Nat)
deriving DecidableEq, Repr

/-- One step of one thread running the `_sa_engine` body against the shared
cache.  The membership check and the construct-and-store are separate
steps, as in the source, where other threads can run in between. -/
def threadStep (nm : String) (g : EngCache) : TState → TState × EngCache
  | .start =>
    match engLookup g nm with
    | none => (.afterMiss, g)
    | some e => (.ret e, g)
  | .afterMiss =>
    let r := create_mathesar_engine g
    (.ret r.1, engStore r.2 nm r.1)
  | .ret e => (.ret e, g)

/-- Two threads sharing the engine cache. -/
structure TwoThreads where
  g : EngCache
  t1 : TState
  t2 : TState
deriving DecidableEq, Repr

/-- Run a schedule: `true` steps thread 1, `false` steps thread 2. -/
def runSched (nm : String) : List Bool → TwoThreads → TwoThreads
  | [], s => s
  | b :: rest, s =>
    if b then
      let r := threadStep nm s.g s.t1
      runSched nm rest { g := r.2, t1 := r.1, t2 := s.t2 }
    else
      let r := threadStep nm s.g s.t2
      runSched nm rest { g := r.2, t1 := s.t1, t2 := r.1 }

/-! ## Theorems -/

/-- C1: every read of identity records through the reflecting manager
`objects` (`DatabaseObjectManager`) runs a full catalog reconciliation
(`reflect_db_objects`) before the queryset is returned — the returned rows
are those of the reconciled registry, and the `reflect` event precedes the
database read in the trace — while reads through `current_objects` and
writes of application-owned attributes (updating a `Column`'s
`display_options`) never trigger reconciliation: their traces gain no
`reflect` event. -/
theorem C1_read_triggers_reconcile (w : ReflWorld) (rid : Nat) (opts : String) :
    (DatabaseObjectManager.get_queryset w).1 = (reflect_db_objects w).rows ∧
    (DatabaseObjectManager.get_queryset w).2.trace =
      w.trace ++ [Event.reflect, Event.dbRead] ∧
    (Manager.get_queryset w).1 = w.rows ∧
    (Manager.get_queryset w).2.trace = w.trace ++ [Event.dbRead] ∧
    (Column.saveDisplayOptions w rid opts).trace = w.trace ++ [Event.dbWrite] := by
  refine ⟨rfl, ?_, rfl, rfl, rfl⟩
  simp [DatabaseObjectManager.get_queryset, Manager.get_queryset, reflect_db_objects]

/-- C10: the `cached_property` `Schema.name` is evaluated at most once per
instance: after a first read, every further read returns the value stored
on the instance, with no shared-cache access (the cache is returned
unchanged) and no catalog access, whatever the time and whatever the shared
cache holds — including after `clear_name_cache` has deleted the shared
entry for that object-id. -/
theorem C10_cached_property_single_evaluation (s : SchemaInst) (cat : Catalog)
    (c : NameCache) (now : Nat) (cat2 : Catalog) (c2 : NameCache) (now2 : Nat) :
    Schema.nameRead (Schema.nameRead s cat c now).inst cat2 c2 now2 =
      ⟨(Schema.nameRead s cat c now).value, (Schema.nameRead s cat c now).inst, c2, 0⟩ ∧
    Schema.nameRead (Schema.nameRead s cat c now).inst cat2
        (Schema.clear_name_cache (Schema.nameRead s cat c now).inst c2) now2 =
      ⟨(Schema.nameRead s cat c now).value, (Schema.nameRead s cat c now).inst,
        Schema.clear_name_cache (Schema.nameRead s cat c now).inst c2, 0⟩ := by
  cases h : s.nameMemo <;> simp [Schema.nameRead, h]

/-- C2 counterexample: on a concrete table (oid 10, columns a, b) whose
shape has been cached on the instance, `drop_column` of attnum 2 leaves the
cached shape in place — the memoised `_sa_table` still holds columns
`["a", "b"]` and a subsequent shape read returns them — even though the
catalog now has only `["a"]`.  The operation thus returns without deleting
the cache entry, refuting the claim that add/alter/drop column invalidate
the Table's cached shape synchronously before returning. -/
theorem C2_counterexample :
    (Table.saColumnsGet ⟨1, 10, 1, none⟩
        ⟨[(1, "public")], [⟨10, "t", [⟨1, "a"⟩, ⟨2, "b"⟩], []⟩], 100⟩).2 =
      ⟨1, 10, 1, some ⟨"t", ["a", "b"], []⟩⟩ ∧
    (Table.drop_column ⟨1, 10, 1, some ⟨"t", ["a", "b"], []⟩⟩
        ⟨[(1, "public")], [⟨10, "t", [⟨1, "a"⟩, ⟨2, "b"⟩], []⟩], 100⟩ 2).2.saTableMemo =
      some ⟨"t", ["a", "b"], []⟩ ∧
    (Table.saColumnsGet
        (Table.drop_column ⟨1, 10, 1, some ⟨"t", ["a", "b"], []⟩⟩
          ⟨[(1, "public")], [⟨10, "t", [⟨1, "a"⟩, ⟨2, "b"⟩], []⟩], 100⟩ 2).2
        (Table.drop_column ⟨1, 10, 1, some ⟨"t", ["a", "b"], []⟩⟩
          ⟨[(1, "public")], [⟨10, "t", [⟨1, "a"⟩, ⟨2, "b"⟩], []⟩], 100⟩ 2).1).1 =
      ["a", "b"] ∧
    reflect_table_from_oid 10
        (Table.drop_column ⟨1, 10, 1, some ⟨"t", ["a", "b"], []⟩⟩
          ⟨[(1, "public")], [⟨10, "t", [⟨1, "a"⟩, ⟨2, "b"⟩], []⟩], 100⟩ 2).1 =
      some ⟨"t", ["a"], []⟩ := by
  decide

/-- C2 (amended): `add_column`, `alter_column` and `drop_column` issue the
catalog DDL keyed by the table's object-id (and attribute-number) but do
not invalidate the Table's cached shape: the instance — with any memoised
`_sa_table` — is returned unchanged, so a shape read after the DDL still
returns the pre-DDL columns whenever the shape was cached.  (Only
`add_constraint` deletes the cached `_sa_table`.) -/
theorem C2_column_ops_do_not_invalidate (t : TableInst) (cat : Catalog)
    (cd : ColumnData) (attnum : Nat) :
    (Table.add_column t cat cd).2 = t ∧
    (Table.add_column t cat cd).1 = create_column cat t.toid cd ∧
    (Table.alter_column t cat attnum cd).2 = t ∧
    (Table.alter_column t cat attnum cd).1 = alter_column cat t.toid attnum cd ∧
    (Table.drop_column t cat attnum).2 = t ∧
    (Table.drop_column t cat attnum).1 = drop_column cat t.toid attnum ∧
    (∀ s, t.saTableMemo = some s →
      (Table.saColumnsGet (Table.drop_column t cat attnum).2
        (Table.drop_column t cat attnum).1).1 = s.saColumns) := by
  refine ⟨rfl, rfl, rfl, rfl, rfl, rfl, ?_⟩
  intro s hs
  simp [Table.drop_column, Table.saColumnsGet, Table.saTableGet, hs]

/-- Witness for C2 (amended) at a concrete cached instance. -/
theorem C2_column_ops_do_not_invalidate_witness :
    (Table.saColumnsGet
      (Table.drop_column ⟨1, 10, 1, some ⟨"t", ["a", "b"], []⟩⟩
        ⟨[(1, "public")], [⟨10, "t", [⟨1, "a"⟩, ⟨2, "b"⟩], []⟩], 100⟩ 2).2
      (Table.drop_column ⟨1, 10, 1, some ⟨"t", ["a", "b"], []⟩⟩
        ⟨[(1, "public")], [⟨10, "t", [⟨1, "a"⟩, ⟨2, "b"⟩], []⟩], 100⟩ 2).1).1 =
    (SATable.mk "t" ["a", "b"] []).saColumns :=
  (C2_column_ops_do_not_invalidate ⟨1, 10, 1, some ⟨"t", ["a", "b"], []⟩⟩
    ⟨[(1, "public")], [⟨10, "t", [⟨1, "a"⟩, ⟨2, "b"⟩], []⟩], 100⟩ ⟨"x"⟩
    2).2.2.2.2.2.2 ⟨"t", ["a", "b"], []⟩ rfl

/-- C9 counterexample: two threads racing through their first access for
the same database name, interleaved as check-check-create-create, construct
two engine handles and return different handles — refuting the claim that
N concurrent first accesses result in exactly one construction with all
callers receiving the same handle. -/
theorem C9_counterexample :
    (runSched "db" [true, false, true, false] ⟨⟨[], 0, 0⟩, .start, .start⟩).g.constructions = 2 ∧
    (runSched "db" [true, false, true, false] ⟨⟨[], 0, 0⟩, .start, .start⟩).t1 = .ret 0 ∧
    (runSched "db" [true, false, true, false] ⟨⟨[], 0, 0⟩, .start, .start⟩).t2 = .ret 1 := by
  decide

/-- A store for a name makes the subsequent lookup for that name hit. -/
theorem engLookup_engStore (g : EngCache) (nm : String) (e : Nat) :
    engLookup (engStore g nm e) nm = some e := by
  unfold engLookup engStore
  rw [List.find?_cons_of_pos _ (by simp)]
  rfl

/-- C9 (amended): the per-name engine cache has no lock, so construction is
single-flighted only in the absence of interleaving: an atomically-run
access constructs at most one handle, and once an access has completed,
any later atomically-run access for the same name performs no construction
and returns the very same handle.  (Interleaved first accesses can each
construct their own handle, as the check-then-act race of the
counterexample shows.) -/
theorem C9_engine_cache_sequential (g : EngCache) (nm : String) :
    Database.sa_engine (Database.sa_engine g nm).2 nm =
      ((Database.sa_engine g nm).1, (Database.sa_engine g nm).2) ∧
    (Database.sa_engine g nm).2.constructions ≤ g.constructions + 1 := by
  refine ⟨?_, ?_⟩
  · cases h : engLookup g nm
    · simp [Database.sa_engine, h, create_mathesar_engine, engLookup_engStore]
    · simp [Database.sa_engine, h]
  · cases h : engLookup g nm
    · simp [Database.sa_engine, h, create_mathesar_engine, engStore]
    · simp [Database.sa_engine, h, Nat.le_succ]

/-- C6: resolving a schema name through the cache: on a miss at time `T`
the name is fetched from the catalog (one catalog call) and stored with the
fixed time-to-live `NAME_CACHE_INTERVAL = 300`; any resolve strictly before
`T + 300` is a hit returning the cached value with no catalog access and an
unchanged cache, even if the catalog name has changed; a resolve at or
after `T + 300` misses and reflects the new catalog name. -/
theorem C6_name_cache_ttl (dbname : String) (soid : Nat) (cat cat2 : Catalog)
    (c : NameCache) (T T2 T3 : Nat) (n1 n2 : String)
    (hmiss : cacheGet c T (schemaNameKey dbname soid) = none)
    (hcat : get_schema_name_from_oid soid cat = some n1)
    (hcat2 : get_schema_name_from_oid soid cat2 = some n2)
    (hT2 : T2 < T + 300) (hT3 : T + 300 ≤ T3) :
    NAME_CACHE_INTERVAL = 300 ∧
    schema_name_resolve dbname soid cat c T =
      ⟨n1, cacheSet c T (schemaNameKey dbname soid) n1 300, 1⟩ ∧
    schema_name_resolve dbname soid cat2
        (cacheSet c T (schemaNameKey dbname soid) n1 300) T2 =
      ⟨n1, cacheSet c T (schemaNameKey dbname soid) n1 300, 0⟩ ∧
    (schema_name_resolve dbname soid cat2
        (cacheSet c T (schemaNameKey dbname soid) n1 300) T3).value = n2 := by
  refine ⟨rfl, ?_, ?_, ?_⟩
  · simp [schema_name_resolve, hmiss, hcat, NAME_CACHE_INTERVAL]
  · simp [schema_name_resolve, cacheGet, cacheSet, hT2]
  · have h3 : ¬ T3 < T + 300 := by omega
    simp [schema_name_resolve, cacheGet, cacheSet, h3, hcat2]

/-- Witness for C6 at concrete times: miss at T = 1000 caching "alpha",
hit at 1299 still "alpha" despite the catalog now saying "beta", miss at
1300 returning "beta". -/
theorem C6_name_cache_ttl_witness :
    NAME_CACHE_INTERVAL = 300 ∧
    schema_name_resolve "db1" 7 ⟨[(7, "alpha")], [], 0⟩ ⟨[]⟩ 1000 =
      ⟨"alpha", cacheSet ⟨[]⟩ 1000 (schemaNameKey "db1" 7) "alpha" 300, 1⟩ ∧
    schema_name_resolve "db1" 7 ⟨[(7, "beta")], [], 0⟩
        (cacheSet ⟨[]⟩ 1000 (schemaNameKey "db1" 7) "alpha" 300) 1299 =
      ⟨"alpha", cacheSet ⟨[]⟩ 1000 (schemaNameKey "db1" 7) "alpha" 300, 0⟩ ∧
    (schema_name_resolve "db1" 7 ⟨[(7, "beta")], [], 0⟩
        (cacheSet ⟨[]⟩ 1000 (schemaNameKey "db1" 7) "alpha" 300) 1300).value = "beta" :=
  C6_name_cache_ttl "db1" 7 ⟨[(7, "alpha")], [], 0⟩ ⟨[(7, "beta")], [], 0⟩ ⟨[]⟩
    1000 1299 1300 "alpha" "beta" (by decide) (by decide) (by decide)
    (by decide) (by decide)

/-- C7: when the catalog lookup fails because the object no longer exists
(but has not yet been reconciled away), resolution returns the sentinel
rather than propagating the error: `Schema.name` resolves to `"MISSING"`
(with the cache untouched), and `Table._sa_table` falls back to
`get_empty_table("MISSING")`, whose name is `"MISSING"`. -/
theorem C7_missing_sentinel (dbname : String) (soid : Nat) (cat cat2 : Catalog)
    (c : NameCache) (now : Nat) (t : TableInst)
    (hmiss : cacheGet c now (schemaNameKey dbname soid) = none)
    (hgone : get_schema_name_from_oid soid cat = none)
    (hmemo : t.saTableMemo = none)
    (hgone2 : lookupTable cat2 t.toid = none) :
    schema_name_resolve dbname soid cat c now = ⟨"MISSING", c, 1⟩ ∧
    (Table.saTableGet t cat2).1 = get_empty_table "MISSING" ∧
    (Table.saTableGet t cat2).1.saName = "MISSING" := by
  refine ⟨?_, ?_, ?_⟩ <;>
    simp [schema_name_resolve, hmiss, hgone, Table.saTableGet, hmemo,
      reflect_table_from_oid, hgone2, get_empty_table]

/-- Witness for C7: a schema oid and a table oid absent from an empty
catalog resolve to the MISSING sentinels. -/
theorem C7_missing_sentinel_witness :
    schema_name_resolve "db1" 9 ⟨[], [], 0⟩ ⟨[]⟩ 0 = ⟨"MISSING", ⟨[]⟩, 1⟩ ∧
    (Table.saTableGet ⟨1, 99, 9, none⟩ ⟨[], [], 0⟩).1 = get_empty_table "MISSING" ∧
    (Table.saTableGet ⟨1, 99, 9, none⟩ ⟨[], [], 0⟩).1.saName = "MISSING" :=
  C7_missing_sentinel "db1" 9 ⟨[], [], 0⟩ ⟨[], [], 0⟩ ⟨[]⟩ 0 ⟨1, 99, 9, none⟩
    (by decide) (by decide) (by decide) (by decide)

/-- Finding a table by oid in a catalog where the table with that oid was
rewritten oid-preservingly commutes with the rewrite. -/
theorem find_updateTableIn (tables : List CatTable) (toid : Nat)
    (g : CatTable → CatTable) (hg : ∀ tb, (g tb).tblOid = tb.tblOid) :
    (updateTableIn tables toid g).find? (fun tb => tb.tblOid == toid) =
      (tables.find? (fun tb => tb.tblOid == toid)).map g := by
  induction tables with
  | nil => rfl
  | cons tb rest ih =>
    by_cases h : tb.tblOid = toid
    · simp [updateTableIn, List.find?_cons, h, hg]
    · simp [updateTableIn, List.find?_cons, h, ih]

/-- C3: `add_constraint` with no explicit constraint name synthesizes the
name deterministically from the table, the constraint kind and the first
constrained column's attribute-number (`get_constraint_name`), resolves the
resulting constraint's object-id by looking it up by that name on the
table, creates exactly one `Constraint` identity row bound to that
object-id and the table, and invalidates the Table's cached shape
(`saTableMemo := none`). -/
theorem C3_add_constraint (t : TableInst) (cat : Catalog) (cobj : ConstraintObj)
    (registry : List ConstraintRec) (nextRid : Nat) (a : Nat) (rest : List Nat)
    (ct : CatTable) (cat1 : Catalog)
    (hname : cobj.objName = none)
    (hcols : cobj.columns_attnum = a :: rest)
    (htbl : lookupTable cat t.toid = some ct)
    (hfree : ct.tblConstraints.any
      (fun cc => cc.conName == get_constraint_name t.toid cobj.objType a) = false)
    (hcc : create_constraint cat t.toid cobj = some cat1) :
    Table.add_constraint t cat cobj registry nextRid =
      some (cat1, { t with saTableMemo := none },
        registry ++ [⟨nextRid, cat.nextOid, t.tid⟩], ⟨nextRid, cat.nextOid, t.tid⟩) ∧
    get_constraint_oid_by_name_and_table_oid
      (get_constraint_name t.toid cobj.objType a) t.toid cat1 = some cat.nextOid := by
  have htbl' : cat.tables.find? (fun tb => tb.tblOid == t.toid) = some ct := htbl
  have hnone : ct.tblConstraints.find?
      (fun cc => cc.conName == get_constraint_name t.toid cobj.objType a) = none :=
    List.find?_eq_none.mpr (List.any_eq_false.mp hfree)
  simp only [create_constraint, hcols, hname, htbl, hfree, Bool.false_eq_true,
    if_false, Option.some.injEq] at hcc
  subst hcc
  have hlk : lookupTable { cat with
      tables := updateTableIn cat.tables t.toid (fun tb =>
        { tb with tblConstraints := tb.tblConstraints ++
            [⟨cat.nextOid, get_constraint_name t.toid cobj.objType a, cobj.objType,
              a :: rest⟩] }),
      nextOid := cat.nextOid + 1 } t.toid =
      some { ct with tblConstraints := ct.tblConstraints ++
        [⟨cat.nextOid, get_constraint_name t.toid cobj.objType a, cobj.objType,
          a :: rest⟩] } := by
    have hcomm := find_updateTableIn cat.tables t.toid
      (fun tb => { tb with tblConstraints := tb.tblConstraints ++
        [⟨cat.nextOid, get_constraint_name t.toid cobj.objType a, cobj.objType,
          a :: rest⟩] }) (fun tb => rfl)
    simp only [lookupTable]
    rw [hcomm, htbl']
    rfl
  have hoid : get_constraint_oid_by_name_and_table_oid
      (get_constraint_name t.toid cobj.objType a) t.toid
      { cat with
        tables := updateTableIn cat.tables t.toid (fun tb =>
          { tb with tblConstraints := tb.tblConstraints ++
              [⟨cat.nextOid, get_constraint_name t.toid cobj.objType a, cobj.objType,
                a :: rest⟩] }),
        nextOid := cat.nextOid + 1 } = some cat.nextOid := by
    simp [get_constraint_oid_by_name_and_table_oid, hlk, List.find?_append, hnone]
  refine ⟨?_, hoid⟩
  simp only [Table.add_constraint, create_constraint, hcols, hname, htbl, hfree,
    Bool.false_eq_true, if_false, hoid]

/-- Witness for C3 at a concrete table and unique-constraint request. -/
theorem C3_add_constraint_witness :
    Table.add_constraint ⟨1, 10, 1, some ⟨"t", ["a"], []⟩⟩
        ⟨[(1, "public")], [⟨10, "t", [⟨1, "a"⟩], []⟩], 700⟩ ⟨none, "u", [1]⟩ [] 5 =
      some (⟨[(1, "public")], [⟨10, "t", [⟨1, "a"⟩], [⟨700, "10_u_1", "u", [1]⟩]⟩], 701⟩,
        ⟨1, 10, 1, none⟩, [⟨5, 700, 1⟩], ⟨5, 700, 1⟩) ∧
    get_constraint_oid_by_name_and_table_oid (get_constraint_name 10 "u" 1) 10
      ⟨[(1, "public")], [⟨10, "t", [⟨1, "a"⟩], [⟨700, "10_u_1", "u", [1]⟩]⟩], 701⟩ =
      some 700 :=
  C3_add_constraint ⟨1, 10, 1, some ⟨"t", ["a"], []⟩⟩
    ⟨[(1, "public")], [⟨10, "t", [⟨1, "a"⟩], []⟩], 700⟩ ⟨none, "u", [1]⟩ [] 5 1 []
    ⟨10, "t", [⟨1, "a"⟩], []⟩
    ⟨[(1, "public")], [⟨10, "t", [⟨1, "a"⟩], [⟨700, "10_u_1", "u", [1]⟩]⟩], 701⟩
    rfl rfl (by decide) (by decide) (by decide)

/-- C8: `Constraint.drop` issues the catalog DDL dropping the constraint
first and then deletes the identity row directly in the same call (the
emitted event list is exactly DDL followed by identity deletion, with no
reconcile), so that the surviving registry rows — hence any immediate
listing of the table's constraints — exclude the dropped row, and the
constraint is gone from the catalog. -/
theorem C8_drop_constraint (c : ConstraintRec) (t : TableInst) (cat : Catalog)
    (registry : List ConstraintRec) (ct : CatTable) (sac : CatConstraint)
    (htbl : lookupTable cat t.toid = some ct)
    (hcon : get_constraint_from_oid c.cOid ct = some sac) :
    Constraint.drop c t cat registry =
      some (drop_constraint_ddl cat t.toid sac.conName,
        registry.filter (fun r => r.crid != c.crid),
        [Event.ddlDropConstraint t.toid sac.conName, Event.identityDelete c.crid]) ∧
    (∀ r ∈ registry.filter (fun r => r.crid != c.crid), r ∈ registry ∧ r.crid ≠ c.crid) ∧
    (lookupTable (drop_constraint_ddl cat t.toid sac.conName) t.toid).map
        (fun tb => tb.tblConstraints.any (fun cc => cc.conName == sac.conName)) =
      some false := by
  have htbl' : cat.tables.find? (fun tb => tb.tblOid == t.toid) = some ct := htbl
  refine ⟨?_, ?_, ?_⟩
  · simp only [Constraint.drop, htbl, hcon]
  · intro r hr
    have h2 := List.mem_filter.mp hr
    exact ⟨h2.1, by simpa using h2.2⟩
  · have hcomm := find_updateTableIn cat.tables t.toid
      (fun tb => { tb with tblConstraints :=
        tb.tblConstraints.filter (fun cc => cc.conName != sac.conName) }) (fun tb => rfl)
    have hlk : lookupTable (drop_constraint_ddl cat t.toid sac.conName) t.toid =
        some { ct with tblConstraints :=
          ct.tblConstraints.filter (fun cc => cc.conName != sac.conName) } := by
      simp only [lookupTable, drop_constraint_ddl]
      rw [hcomm, htbl']
      rfl
    rw [hlk]
    simp only [Option.map_some', Option.some.injEq]
    rw [List.any_eq_false]
    intro cc hcc
    have h2 := List.mem_filter.mp hcc
    simpa using h2.2

/-- Witness for C8 at a concrete table with two constraint rows. -/
theorem C8_drop_constraint_witness :
    Constraint.drop ⟨3, 500, 1⟩ ⟨1, 10, 1, none⟩
        ⟨[(1, "public")], [⟨10, "t", [⟨1, "a"⟩], [⟨500, "t_pkey", "p", [1]⟩]⟩], 900⟩
        [⟨3, 500, 1⟩, ⟨4, 600, 1⟩] =
      some (drop_constraint_ddl
          ⟨[(1, "public")], [⟨10, "t", [⟨1, "a"⟩], [⟨500, "t_pkey", "p", [1]⟩]⟩], 900⟩
          10 "t_pkey",
        List.filter (fun r => r.crid != 3) [⟨3, 500, 1⟩, ⟨4, 600, 1⟩],
        [Event.ddlDropConstraint 10 "t_pkey", Event.identityDelete 3]) ∧
    (lookupTable (drop_constraint_ddl
        ⟨[(1, "public")], [⟨10, "t", [⟨1, "a"⟩], [⟨500, "t_pkey", "p", [1]⟩]⟩], 900⟩
        10 "t_pkey") 10).map
      (fun tb => tb.tblConstraints.any (fun cc => cc.conName == "t_pkey")) =
      some false :=
  ⟨(C8_drop_constraint ⟨3, 500, 1⟩ ⟨1, 10, 1, none⟩
      ⟨[(1, "public")], [⟨10, "t", [⟨1, "a"⟩], [⟨500, "t_pkey", "p", [1]⟩]⟩], 900⟩
      [⟨3, 500, 1⟩, ⟨4, 600, 1⟩] ⟨10, "t", [⟨1, "a"⟩], [⟨500, "t_pkey", "p", [1]⟩]⟩
      ⟨500, "t_pkey", "p", [1]⟩ rfl rfl).1,
   (C8_drop_constraint ⟨3, 500, 1⟩ ⟨1, 10, 1, none⟩
      ⟨[(1, "public")], [⟨10, "t", [⟨1, "a"⟩], [⟨500, "t_pkey", "p", [1]⟩]⟩], 900⟩
      [⟨3, 500, 1⟩, ⟨4, 600, 1⟩] ⟨10, "t", [⟨1, "a"⟩], [⟨500, "t_pkey", "p", [1]⟩]⟩
      ⟨500, "t_pkey", "p", [1]⟩ rfl rfl).2.2⟩

/-- C5: Table-insert uniqueness.  Saving a new Table whose catalog oid
collides with an existing Table under the same parent schema raises the
application-level validation error (the pre-check fires before the
insert); the underlying unique index alone would also reject the pair,
with an integrity error of a distinct class; and any successful save
preserves the invariant that no two Table rows share an (oid, schema)
pair. -/
theorem C5_table_insert_uniqueness :
    (∀ reg newT t', t' ∈ reg.tables → t'.troid = newT.troid →
      t'.tschemaId = newT.tschemaId →
      Table.save reg newT = .error (.validation "Table OID is not unique")) ∧
    (∀ reg newT t', t' ∈ reg.tables → t'.troid = newT.troid →
      t'.tschemaId = newT.tschemaId →
      dbInsertTable reg newT = .error (.integrity "unique_table")) ∧
    (∀ reg newT reg2, tablePairUnique reg → Table.save reg newT = .ok reg2 →
      tablePairUnique reg2) ∧
    (∀ msg idx, (SaveError.validation msg) ≠ (SaveError.integrity idx)) := by
  refine ⟨?_, ?_, ?_, ?_⟩
  · intro reg newT t' hmem hoid hsch
    have hval : Table.validate_unique reg newT = true := by
      unfold Table.validate_unique
      rw [List.any_eq_true]
      exact ⟨t', hmem, by simp [hoid, hsch]⟩
    simp [Table.save, hval]
  · intro reg newT t' hmem hoid hsch
    have hidx : reg.tables.any
        (fun tr => tr.troid == newT.troid && tr.tschemaId == newT.tschemaId) = true := by
      rw [List.any_eq_true]
      exact ⟨t', hmem, by simp [hoid, hsch]⟩
    simp [dbInsertTable, hidx]
  · intro reg newT reg2 huniq hok
    unfold Table.save dbInsertTable at hok
    cases hval : Table.validate_unique reg newT with
    | true => simp [hval] at hok
    | false =>
      cases hidx : reg.tables.any
          (fun tr => tr.troid == newT.troid && tr.tschemaId == newT.tschemaId) with
      | true => simp [hval, hidx] at hok
      | false =>
        simp only [hval, hidx, Bool.false_eq_true, if_false, Except.ok.injEq] at hok
        subst hok
        unfold tablePairUnique at huniq ⊢
        rw [List.pairwise_append]
        refine ⟨huniq, by simp, ?_⟩
        intro x hx y hy
        have hy2 : y = newT := by simpa using hy
        subst hy2
        rintro ⟨h1, h2⟩
        have hall := List.any_eq_false.mp hidx x hx
        simp [h1, h2] at hall
  · intro msg idx h
    cases h

/-- Witness for C5 at a concrete registry: inserting a second Table row
with oid 42 under the same schema raises the validation error. -/
theorem C5_table_insert_uniqueness_witness :
    Table.save ⟨[⟨5, 2⟩], [⟨1, 42, 5⟩]⟩ ⟨2, 42, 5⟩ =
      .error (.validation "Table OID is not unique") :=
  C5_table_insert_uniqueness.1 ⟨[⟨5, 2⟩], [⟨1, 42, 5⟩]⟩ ⟨2, 42, 5⟩ ⟨1, 42, 5⟩
    (by decide) rfl rfl

/-- A bulk update replaces the row found by id with the collected object
carrying that id. -/
theorem bulk_update_find (cols objs : List ColumnRow) (idv : Nat) (c o : ColumnRow)
    (hc : cols.find? (fun r => r.cid == idv) = some c)
    (ho : objs.find? (fun r => r.cid == idv) = some o) :
    (bulk_update cols objs).find? (fun r => r.cid == idv) = some o := by
  have hpo := List.find?_some ho
  induction cols with
  | nil => simp at hc
  | cons c1 rest ih =>
    by_cases h : c1.cid = idv
    · have hobjs : objs.find? (fun r => r.cid == c1.cid) = some o := by
        rw [h]; exact ho
      simp [bulk_update, List.find?_cons, hobjs, hpo]
    · have hbf : (c1.cid == idv) = false := by simp [h]
      have hc2 : rest.find? (fun r => r.cid == idv) = some c := by
        simp only [List.find?_cons, hbf] at hc
        exact hc
      cases hfind : objs.find? (fun r => r.cid == c1.cid) with
      | none =>
        simpa [bulk_update, List.find?_cons, hfind, hbf] using ih hc2
      | some o2 =>
        have ho2 : o2.cid = c1.cid := by simpa using List.find?_some hfind
        simpa [bulk_update, List.find?_cons, hfind, ho2, hbf] using ih hc2

/-- Each entry of the name → attnum map yields, among the collected column
objects, exactly the row carrying the mapped id, the new table id, and the
catalog's attribute-number — and that id was found among the stored
rows. -/
theorem buildColumnObjs_find (tidv : Nat) (cmap : List (String × Nat))
    (cols : List ColumnRow) :
    ∀ (m : List (String × Nat)) (objs : List ColumnRow),
      buildColumnObjs tidv cmap cols m = some objs →
      (assignedIds cmap m).Nodup →
      ∀ p ∈ m, ∀ q, cmap.find? (fun r => r.1 == p.1) = some q →
        (∃ c0, cols.find? (fun r => r.cid == q.2) = some c0) ∧
        objs.find? (fun o => o.cid == q.2) = some ⟨q.2, tidv, p.2⟩ := by
  intro m
  induction m with
  | nil =>
    intro objs hbuild hnodup p hp
    cases hp
  | cons p0 rest ih =>
    intro objs hbuild hnodup p hp q hq
    cases hq0 : cmap.find? (fun r => r.1 == p0.1) with
    | none => simp [buildColumnObjs, hq0] at hbuild
    | some q0 =>
      cases hc0 : cols.find? (fun r => r.cid == q0.2) with
      | none => simp [buildColumnObjs, hq0, hc0] at hbuild
      | some c0 =>
        simp only [buildColumnObjs, hq0, hc0] at hbuild
        obtain ⟨objsR, hrest, hobjs⟩ := Option.map_eq_some'.mp hbuild
        subst hobjs
        have hassign : assignedIds cmap (p0 :: rest) =
            q0.2 :: assignedIds cmap rest := by
          simp [assignedIds, hq0]
        rw [hassign] at hnodup
        have hq0notin : q0.2 ∉ assignedIds cmap rest := (List.nodup_cons.mp hnodup).1
        have hrestnodup : (assignedIds cmap rest).Nodup := (List.nodup_cons.mp hnodup).2
        have hc0cid : c0.cid = q0.2 := by simpa using List.find?_some hc0
        rcases List.mem_cons.mp hp with hpeq | hpmem
        · subst hpeq
          rw [hq0] at hq
          injection hq with hqq
          subst hqq
          refine ⟨⟨c0, hc0⟩, ?_⟩
          simp [List.find?_cons, hc0cid]
        · have hqin : q.2 ∈ assignedIds cmap rest :=
            List.mem_filterMap.mpr ⟨p, hpmem, by rw [hq]; rfl⟩
          have hne : c0.cid ≠ q.2 := by
            rw [hc0cid]
            intro habs
            exact hq0notin (habs.symm ▸ hqin)
          have hbf2 : (c0.cid == q.2) = false := by simp [hne]
          obtain ⟨hex, hfind⟩ := ih objsR hrest hrestnodup p hpmem q hq
          refine ⟨hex, ?_⟩
          simpa [List.find?_cons, hbf2] using hfind

/-- C4: after `update_column_reference(columns_name, column_name_id_map)` on
a resulting table, every column name of the request that the catalog lists
for that table has its `Column` identity row — the one with the id the map
assigns to that name — remapped to point at that table (`table_id = t.tid`)
with `attnum` the attribute-number the catalog newly assigned to that name
there. -/
theorem C4_update_column_reference (t : TableInst) (columns_name : List String)
    (column_name_id_map : List (String × Nat)) (cat : Catalog)
    (cols cols2 : List ColumnRow)
    (hres : Table.update_column_reference t columns_name column_name_id_map cat cols =
      some cols2)
    (hnodup : (assignedIds column_name_id_map
      (get_columns_attnum_from_names t.toid columns_name cat)).Nodup)
    (p : String × Nat)
    (hp : p ∈ get_columns_attnum_from_names t.toid columns_name cat)
    (q : String × Nat)
    (hq : column_name_id_map.find? (fun r => r.1 == p.1) = some q) :
    cols2.find? (fun r => r.cid == q.2) = some ⟨q.2, t.tid, p.2⟩ := by
  simp only [Table.update_column_reference] at hres
  obtain ⟨objs, hbuild, hbulk⟩ := Option.map_eq_some'.mp hres
  obtain ⟨⟨c0, hc0⟩, hfind⟩ :=
    buildColumnObjs_find t.tid column_name_id_map cols
      (get_columns_attnum_from_names t.toid columns_name cat) objs hbuild hnodup p hp q hq
  rw [← hbulk]
  exact bulk_update_find cols objs q.2 c0 _ hc0 hfind

/-- Witness for C4 on the spec's split example: the original table had
columns a, b, c with attnums 1, 2, 3 and Column rows with ids 11, 12, 13;
after the split, the extracted table (surrogate id 2, oid 20) owns b with
new attnum 1; remapping b's row (id 12) points it at the extracted table
with attnum 1. -/
theorem C4_update_column_reference_witness :
    (List.find? (fun r => r.cid == 12)
      [⟨11, 1, 1⟩, ⟨12, 2, 1⟩, ⟨13, 1, 3⟩] : Option ColumnRow) =
      some ⟨12, 2, 1⟩ :=
  C4_update_column_reference ⟨2, 20, 1, none⟩ ["b"] [("b", 12)]
    ⟨[(1, "public")], [⟨20, "ext", [⟨1, "b"⟩], []⟩, ⟨30, "rem", [⟨1, "a"⟩, ⟨2, "c"⟩], []⟩], 100⟩
    [⟨11, 1, 1⟩, ⟨12, 1, 2⟩, ⟨13, 1, 3⟩] [⟨11, 1, 1⟩, ⟨12, 2, 1⟩, ⟨13, 1, 3⟩]
    (by decide) (by decide) ("b", 1) (by decide) ("b", 12) (by decide)

end Mathesar
